/-
Verification of the ARN SDK (Azure/arn-sdk) delivery pipeline against its
natural-language specification.

Shallow embedding of the Go sources:
  * models/v3/schema/types/types.go     (Data, NotificationResource, ArmResource,
                                         ResourceSystemProperties and their Validate methods)
  * models/v3/schema/envelope/envelope.go (Event, EventMeta, Validate)
  * models/v3/msgs  (Notifications: inline, toEvent, SendEvent, Promise, Recycle,
                     SendPromise, subject)
  * internal/conn/conn.go (Service.Send, Service.sender, PromisePool)
  * internal/conn/maxvals (InlineSize, NotificationItems)
  * client package (ARN.Notify, ARN.Async)

Machine integers: the Go enums are uint8; all values used are tiny, so they are
modelled as Nat.  Byte slices ([]byte) are modelled as List Nat.  Go errors are
modelled by the inductive Err below; the distinguished sentinel errors
models.ErrBatchSize and models.ErrPromiseTimeout are constructors.  Channels of
capacity one are modelled as Option-valued cells.  External effects
(json.Marshal, the HTTP POST, the blob upload, uuid generation, the clock) are
parameters of the embedded functions, exactly at the places the Go code calls
out to them.
-/
import Mathlib

set_option maxRecDepth 4000

/-- Go errors relevant to the pipeline.  batchSize is models.ErrBatchSize,
promiseTimeout is models.ErrPromiseTimeout, ctxCanceled/ctxDeadlineExceeded are
the two context sentinel errors; validation and other carry message strings;
httpFail/blobFail stand for transport errors produced by the collaborators. -/
inductive Err
  | batchSize
  | promiseTimeout
  | ctxCanceled
  | ctxDeadlineExceeded
  | validation (msg : String)
  | httpFail (msg : String)
  | blobFail (msg : String)
  | other (msg : String)
deriving DecidableEq, Repr

/-- The two possible results of ctx.Err() for a done Go context. -/
inductive CtxErr
  | canceled
  | deadlineExceeded
deriving DecidableEq, Repr

/-- The Go error value returned by ctx.Err(). -/
def CtxErr.toErr : CtxErr → Err
  | .canceled => Err.ctxCanceled
  | .deadlineExceeded => Err.ctxDeadlineExceeded

/-! ## internal/conn/maxvals -/

/-- maxvals.InlineSize: maximum size of an inline ARN value (bytes). -/
def InlineSize : Nat := 42000

/-- maxvals.NotificationItems: maximum number of items in a single notification. -/
def NotificationItems : Nat := 1000

/-! ## models/v3/schema/types: enums (uint8, modelled as Nat) -/

/-- types.RCUnknown -/
def RCUnknown : Nat := 0

/-- types.RCInline -/
def RCInline : Nat := 1

/-- types.RCBlob -/
def RCBlob : Nat := 2

/-- len(_ResourcesContainer_index)-1 for the three-valued stringer enum
(RCUnknown, RCInline, RCBlob): the first invalid value. -/
def resourcesContainerLimit : Nat := 3

/-- types.ActUnknown / ActWrite / ActDelete / ActSnapshot -/
def ActUnknown : Nat := 0

/-- types.ActWrite -/
def ActWrite : Nat := 1

/-- types.ActDelete -/
def ActDelete : Nat := 2

/-- types.ActSnapshot -/
def ActSnapshot : Nat := 3

/-- Activity.String() of the stringer with line comments "", "write", "delete",
"snapshot"; out-of-range values print like the stringer default. -/
def activityString (a : Nat) : String :=
  if a = 0 then ""
  else if a = 1 then "write"
  else if a = 2 then "delete"
  else if a = 3 then "snapshot"
  else "Activity(" ++ toString a ++ ")"

/-- len(_ChangeAction_index)-1 for the five-valued ChangeAction enum
(CAUnknown, CACreate, CADelete, CAMove, CAUpdate): the first invalid value. -/
def changeActionLimit : Nat := 5

/-- types.StatusCode: producers always send "OK". -/
def StatusCode : String := "OK"

/-! ## models/v3/schema/types: structures -/

/-- Result of Go reflect.TypeOf as used by Data.Validate.  Properties is typed
any: a nil interface reflects to the nil Type, a JSON-dictionary payload to its
own type; reflect.TypeOf(r) for r a NotificationResource is the struct type,
which a Properties payload never is in this model. -/
inductive GoType
  | nilType
  | jsonValue
  | notificationResourceType
deriving DecidableEq, Repr

/-- reflect.TypeOf(r.ArmResource.Properties) with Properties modelled as
Option String (none = nil interface). -/
def goTypeOfProps : Option String → GoType
  | none => GoType.nilType
  | some _ => GoType.jsonValue

/-- types.ArmResource.  Properties (any) is modelled as an optional opaque JSON
payload; the unexported arm *arm.ResourceID linked list is modelled as the list
of the String() forms of its nodes, head first, [] for a nil pointer; act is
the unexported Activity. -/
structure ArmResource where
  properties : Option String := none
  name : String := ""
  rtype : String := ""
  id : String := ""
  location : String := ""
  apiVersion : String := ""
  arm : List String := []
  act : Nat := 0
deriving DecidableEq, Repr

/-- ArmResource.Validate from types.go. -/
def ArmResource.Validate (a : ArmResource) : Option String :=
  if a.id = "" then some ".ID is required"
  else if a.act = ActWrite ∨ a.act = ActSnapshot then
    if a.properties = none then some ".Properties is required" else none
  else if a.act = ActDelete then none
  else some ("unknown activity \"" ++ activityString a.act ++ "\"")

/-- types.ResourceSystemProperties; the two time.Time fields are modelled as
Nat (0 = zero time). -/
structure ResourceSystemProperties where
  createdTime : Nat := 0
  modifiedTime : Nat := 0
  createdBy : String := ""
  modifiedBy : String := ""
  changeAction : Nat := 0
deriving DecidableEq, Repr

/-- ResourceSystemProperties.Validate from types.go. -/
def ResourceSystemProperties.Validate (r : ResourceSystemProperties) : Option String :=
  if r.changeAction = 0 ∨ changeActionLimit ≤ r.changeAction then
    some (".ChangedAction(" ++ toString r.changeAction ++ ") is invalid")
  else none

/-- types.NotificationResource.  ResourceEventTime is modelled as Nat,
AdditionalResourceProperties as an association list, OperationalInfo is an
empty struct. -/
structure NotificationResource where
  resourceEventTime : Nat := 0
  armResource : ArmResource := {}
  additionalResourceProperties : List (String × String) := []
  resourceID : String := ""
  apiVersion : String := ""
  sourceResourceID : String := ""
  correlationID : String := ""
  statusCode : String := ""
  homeTenantID : String := ""
  resourceHomeTenantID : String := ""
  resourceSystemProperties : ResourceSystemProperties := {}
deriving DecidableEq, Repr

/-- NotificationResource.Validate from types.go: the ArmResource is validated
only when it differs from the zero ArmResource value. -/
def NotificationResource.Validate (n : NotificationResource) : Option String :=
  if n.resourceID = "" then some ".ResourceID is required"
  else if n.statusCode ≠ StatusCode then some ".StatusCode is required as OK"
  else
    match (if n.armResource ≠ ({} : ArmResource) then n.armResource.Validate else none) with
    | some e => some (".ArmResource: " ++ e)
    | none =>
      match n.resourceSystemProperties.Validate with
      | some e => some (".ResourceSystemProperties: " ++ e)
      | none => none

/-- types.ResourcesBlobInfo; BlobURI is the URL in string form. -/
structure ResourcesBlobInfo where
  blobURI : String := ""
  blobSize : Nat := 0
deriving DecidableEq, Repr

/-- types.Data.  Data (json.RawMessage) is the serialized resource bytes;
AdditionalBatchProperties is an association list; the two stringer enums are
Nat. -/
structure Data where
  data : List Nat := []
  additionalBatchProperties : List (String × String) := []
  resourcesBlobInfo : ResourcesBlobInfo := {}
  homeTenantID : String := ""
  resourceHomeTenantID : String := ""
  resourceLocation : String := ""
  frontdoorLocation : String := ""
  publisherInfo : String := ""
  sign : String := ""
  routingType : String := ""
  apiVersion : String := ""
  resources : List NotificationResource := []
  resourcesContainer : Nat := 0
  dataBoundary : String := ""
deriving DecidableEq, Repr

/-- The per-resource APIVersion checks of the Data.Validate loop body that run
after rscAPIVersion/rscType have been established (the two trailing if
statements of the loop). -/
def apiMatchChecks (rscAPI : String) (r : NotificationResource) : Option String :=
  if rscAPI ≠ r.apiVersion then some "all resources must have the same APIVersion"
  else if rscAPI ≠ "" then
    if r.armResource.apiVersion ≠ rscAPI then
      some "all resources must have the same APIVersion and ArmResource.APIVersion must match"
    else if r.armResource.apiVersion ≠ r.apiVersion then
      some "all resources must have the same APIVersion and ArmResource.APIVersion must match"
    else none
  else none

/-- The APIVersion presence/consistency check of the Data.Validate loop body
(the if d.APIVersion == "" branch pair), followed by apiMatchChecks. -/
def resourceAPIChecks (dAPI rscAPI : String) (r : NotificationResource) : Option String :=
  if dAPI = "" then
    if r.apiVersion = "" then some "NotificationResource.APIVersion is required when not set on Data"
    else apiMatchChecks rscAPI r
  else
    if dAPI ≠ r.apiVersion ∧ r.apiVersion ≠ "" then
      some "NotificationResource.APIVersion must match Data.APIVersion if set"
    else apiMatchChecks rscAPI r

/-- Iterations i ≥ 1 of the Data.Validate resource loop: r.Validate, then the
unique.Make type comparison of the Properties type of the first resource against
reflect.TypeOf(r) (a NotificationResource), then the APIVersion checks. -/
def validateInlineRest (dAPI rscAPI : String) (rscType : GoType) (i : Nat) :
    List NotificationResource → Option String
  | [] => none
  | r :: rest =>
    match r.Validate with
    | some e => some (".Resources[" ++ toString i ++ "]" ++ e)
    | none =>
      if rscType ≠ GoType.notificationResourceType then
        some "all NotificationResource.ARMResource.Properties must be of the same type"
      else
        match resourceAPIChecks dAPI rscAPI r with
        | some e => some e
        | none => validateInlineRest dAPI rscAPI rscType (i + 1) rest

/-- Iteration i = 0 of the Data.Validate resource loop: r.Validate, establish
rscAPIVersion := r.APIVersion and rscType := reflect.TypeOf(r.ArmResource.Properties),
run the APIVersion checks, then the remaining iterations. -/
def validateInlineFirst (dAPI : String) (r : NotificationResource)
    (rest : List NotificationResource) : Option String :=
  match r.Validate with
  | some e => some (".Resources[0]" ++ e)
  | none =>
    match resourceAPIChecks dAPI r.apiVersion r with
    | some e => some e
    | none => validateInlineRest dAPI r.apiVersion (goTypeOfProps r.armResource.properties) 1 rest

/-- Data.Validate from types.go: the ResourcesContainer range check, nothing
further for RCBlob (the blob info is filled in only after upload), and the
resource loop for RCInline. -/
def Data.Validate (d : Data) : Option String :=
  if d.resourcesContainer = 0 ∨ resourcesContainerLimit ≤ d.resourcesContainer then
    some (".ChangedAction(" ++ toString d.resourcesContainer ++ ") is invalid")
  else if d.resourcesContainer = RCBlob then none
  else if d.resourcesContainer = RCInline then
    match d.resources with
    | [] => some ".Resources is required when ResourcesContainer is Inline"
    | r :: rest => validateInlineFirst d.apiVersion r rest
  else none

/-! ## models/v3/schema/envelope -/

/-- envelope.EventMeta; EventTime (time.Time) is modelled as Nat (0 = zero),
DataVersion (version.Schema) and MetadataVersion as strings. -/
structure EventMeta where
  topic : String := ""
  subject : String := ""
  eventType : String := ""
  eventTime : Nat := 0
  id : String := ""
  dataVersion : String := ""
  metadataVersion : String := ""
deriving DecidableEq, Repr

/-- version.V3 -/
def V3 : String := "3.0"

/-- EventMeta.Validate from envelope.go. -/
def EventMeta.Validate (e : EventMeta) : Option String :=
  if e.subject = "" then some "EventMeta.Subject is required"
  else if e.eventType = "" then some "EventMeta.EventType is required"
  else if e.eventTime = 0 then some "EventMeta.EventTime is required"
  else if e.id = "" then some "EventMeta.ID is required"
  else if e.dataVersion ≠ V3 then some ("EventMeta.DataVersion must be " ++ V3)
  else if e.metadataVersion ≠ "1.0" then some "EventMeta.MetadataVersion must be 1"
  else none

/-- envelope.Event -/
structure Event where
  eventMeta : EventMeta := {}
  data : Data := {}
deriving DecidableEq, Repr

/-- Event.Validate from envelope.go. -/
def Event.Validate (e : Event) : Option String :=
  match e.eventMeta.Validate with
  | some err => some ("Event.EventMeta: " ++ err)
  | none =>
    match e.data.Validate with
    | some err => some ("Event.Data: " ++ err)
    | none => none

/-! ## models/v3/msgs: subject.go -/

/-- asSlice from subject.go: the nodes of the arm.ResourceID linked list, head
first; a nil pointer yields the empty slice.  In this model the arm field
already is that slice (each node represented by its String()). -/
def asSlice (rid : List String) : List String := rid

/-- maxSharedSuffix models maxSharedPrefix from subject.go: walking both node
slices backwards while the node String()s agree collects (in forward order)
the maximal arm.ResourceID that is a shared prefix of both resource IDs, which
in slice form is the longest common suffix. -/
def maxSharedSuffix (a b : List String) : List String :=
  (((a.reverse.zip b.reverse).takeWhile (fun p => p.1 = p.2)).map Prod.fst).reverse

/-- subject from subject.go: the maximal shared arm.ResourceID prefix of all
resources, "/" when only the tenant scope (or nothing) is shared. -/
def subject (res : List NotificationResource) : String :=
  match res with
  | [] => ""
  | r0 :: rest =>
    let m := rest.foldl (fun acc r => maxSharedSuffix acc (asSlice r.armResource.arm))
      (asSlice r0.armResource.arm)
    if m.length ≤ 1 then "/" else m.headD ""

/-! ## models/v3/msgs: Notifications -/

/-- msgs.Notifications: the v3 notification wrapper.  The context and the
promise channel are modelled separately where they matter (promiseAwait,
sendPromiseFx, the channel-state functions); the test hooks are the transport
parameters of SendEvent. -/
structure Notifications where
  resourceLocation : String := ""
  publisherInfo : String := ""
  data : List NotificationResource := []
deriving DecidableEq, Repr

/-- Notifications.DataCount -/
def Notifications.DataCount (n : Notifications) : Nat := n.data.length

/-- newEventMeta from msgs.go.  genID stands for uuid.New().String() and now
for nower().UTC() (modelled as Nat, never 0 for a real clock reading). -/
def newEventMeta (data : List NotificationResource) (genID : String) (now : Nat) :
    Except String EventMeta :=
  match data with
  | [] => Except.error "data must not be empty"
  | d0 :: _ =>
    Except.ok
      { id := genID
        subject := subject data
        dataVersion := V3
        metadataVersion := "1.0"
        eventTime := now
        eventType := d0.armResource.rtype ++ "/" ++ activityString d0.armResource.act }

/-- Notifications.inline from msgs.go: marshal the data once (json.Marshal is
the marshal parameter) and compare against maxvals.InlineSize. -/
def Notifications.inline (n : Notifications)
    (marshal : List NotificationResource → Except String (List Nat)) :
    Except String (List Nat × Bool) :=
  match marshal n.data with
  | Except.error e => Except.error e
  | Except.ok b => Except.ok (b, decide (b.length < InlineSize))

/-- Notifications.toEvent from msgs.go: the inline event embeds the payload
bytes and is marked RCInline; the blob event carries no payload bytes and is
marked RCBlob (the blob info is filled in later by SendEvent). -/
def Notifications.toEvent (n : Notifications)
    (marshal : List NotificationResource → Except String (List Nat))
    (genID : String) (now : Nat) : Except String (List Nat × Event) :=
  match n.inline marshal with
  | Except.error e => Except.error e
  | Except.ok (dataJSON, inl) =>
    match newEventMeta n.data genID now with
    | Except.error e => Except.error ("problem creating an EventMeta: " ++ e)
    | Except.ok meta =>
      if inl then
        Except.ok (dataJSON,
          { eventMeta := meta
            data :=
              { data := dataJSON
                resourcesContainer := RCInline
                resourceLocation := n.resourceLocation
                publisherInfo := n.publisherInfo
                resources := n.data } })
      else
        Except.ok (dataJSON,
          { eventMeta := meta
            data :=
              { resourcesContainer := RCBlob
                resourceLocation := n.resourceLocation
                publisherInfo := n.publisherInfo
                resources := n.data } })

/-- The producer stamping loop of SendEvent: the StatusCode of every resource is
set to types.StatusCode before validation. -/
def stampEvent (ev : Event) : Event :=
  { ev with data := { ev.data with
      resources := ev.data.resources.map (fun r => { r with statusCode := StatusCode }) } }

/-- SendEvent writes the blob locator onto the event before the pointer
delivery: Event.Data.ResourcesBlobInfo.BlobURI = u.String() and BlobSize =
int64(len(dataJSON)). -/
def setBlobInfo (ev : Event) (uri : String) (size : Nat) : Event :=
  { ev with data := { ev.data with resourcesBlobInfo := { blobURI := uri, blobSize := size } } }

/-- A transport interaction performed by SendEvent: sendHTTP delivers an
envelope over the wire, sendBlob uploads the payload bytes to storage. -/
inductive Call
  | http (ev : Event)
  | blob (payload : List Nat)
deriving DecidableEq, Repr

/-- Notifications.SendEvent from msgs.go, instrumented with the list of
transport calls it performs in order.  httpRes is the outcome of
sendHTTP (testSendHTTP / hc.Send), blobRes the outcome of sendBlob
(testSendBlob / store.Upload, returning the blob URL).  Flow: refuse empty
data; toEvent; stamp StatusCode; Event.Validate (before any network call);
then either the single inline HTTP send, or the blob upload followed — only on
upload success — by the pointer HTTP send. -/
def Notifications.SendEvent (n : Notifications)
    (marshal : List NotificationResource → Except String (List Nat))
    (genID : String) (now : Nat)
    (httpRes : Event → Option Err) (blobRes : List Nat → Except Err String) :
    List Call × Option Err :=
  if n.data.isEmpty then ([], some (Err.other "no data to send"))
  else
    match n.toEvent marshal genID now with
    | Except.error e => ([], some (Err.other e))
    | Except.ok (dataJSON, event) =>
      let ev := stampEvent event
      match ev.Validate with
      | some e => ([], some (Err.validation e))
      | none =>
        if ev.data.resourcesContainer = RCInline then
          ([Call.http ev], httpRes ev)
        else
          match blobRes dataJSON with
          | Except.error e => ([Call.blob dataJSON], some e)
          | Except.ok u =>
            let ev2 := setBlobInfo ev u dataJSON.length
            ([Call.blob dataJSON, Call.http ev2], httpRes ev2)

/-- The event that SendEvent validates and hands to the transport: toEvent
followed by the StatusCode stamping, none when toEvent fails. -/
def Notifications.builtEvent (n : Notifications)
    (marshal : List NotificationResource → Except String (List Nat))
    (genID : String) (now : Nat) : Option Event :=
  match n.toEvent marshal genID now with
  | Except.error _ => none
  | Except.ok (_, event) => some (stampEvent event)

/-! ## models/v3/msgs: the promise protocol -/

/-- Outcome of the select in Promise once the entry ctx.Err() check has
passed: either the wait context of the caller becomes done first, or the promise
channel delivers the resolved value first. -/
inductive RaceWinner
  | ctxDone
  | delivered (e : Option Err)
deriving DecidableEq, Repr

/-- Notifications.Promise from msgs.go.  nil promise returns nil at once; an
already-done context returns ctx.Err() at entry; otherwise the select returns
models.ErrPromiseTimeout when the context wins and the resolved value when the
channel wins.  (The pool Put performed on return acts on the channel state,
see promiseReleaseChan.) -/
def Notifications.promiseAwait (hasPromise : Bool) (ctxErr : Option CtxErr)
    (winner : RaceWinner) : Option Err :=
  if hasPromise = false then none
  else
    match ctxErr with
    | some e => some e.toErr
    | none =>
      match winner with
      | RaceWinner.ctxDone => some Err.promiseTimeout
      | RaceWinner.delivered e => e

/-- Effect of Notifications.SendPromise: the resolved value goes to the
promise channel when one is set (logging a bug when that channel is full); a
nil error with no promise is dropped; otherwise the error is offered to the
backup channel without blocking and dropped when that channel is full. -/
inductive PromiseEffect
  | sentToPromise (e : Option Err)
  | promiseBlockedBug (e : Option Err)
  | noOp
  | sentToBackup (e : Err)
  | droppedBackup (e : Err)
deriving DecidableEq, Repr

/-- Notifications.SendPromise from msgs.go, as the effect it has.  hasPromise:
n.promise != nil; promiseEmpty: the buffered promise channel has room;
backupSet: backupCh != nil; backupHasRoom: the backup channel send would not
block. -/
def Notifications.sendPromiseFx (hasPromise : Bool) (e : Option Err)
    (backupSet : Bool) (promiseEmpty : Bool) (backupHasRoom : Bool) : PromiseEffect :=
  if hasPromise = false then
    match e with
    | none => PromiseEffect.noOp
    | some err =>
      if backupSet then
        if backupHasRoom then PromiseEffect.sentToBackup err
        else PromiseEffect.droppedBackup err
      else PromiseEffect.noOp
  else
    if promiseEmpty then PromiseEffect.sentToPromise e
    else PromiseEffect.promiseBlockedBug e

/-! ## The promise channel as a capacity-one cell

conn.PromisePool hands out buffered chan error of capacity one.  The content
of such a channel is Option (Option Err): none = empty, some v = one pending
resolved value v. -/

/-- State of a pooled promise channel: empty or holding one unread resolved
value. -/
abbrev PromiseChan := Option (Option Err)

/-- Notifications.Recycle from msgs.go, as its effect on the channel content:
the select with default drains at most one stale value, so the channel is
returned to the pool empty. -/
def Notifications.recycleChan (c : PromiseChan) : PromiseChan :=
  match c with
  | some _ => none
  | none => none

/-- The release performed when Notifications.Promise returns: the deferred
conn.PromisePool.Put(n.promise) returns the channel to the pool as-is; no
drain is performed on this path. -/
def Notifications.promiseReleaseChan (c : PromiseChan) : PromiseChan := c

/-- The non-blocking send of a resolution onto a promise channel (the select
in SendPromise): stores the value when the channel is empty, otherwise leaves
the pending value in place (the bug is logged). -/
def resolveChan (c : PromiseChan) (e : Option Err) : PromiseChan :=
  match c with
  | none => some e
  | some v => some v

/-! ## internal/conn: Service.Send and the sender loop -/

/-- Outcome of the race in the hand-off select: either the capacity-one queue
accepts the notification, or the context of the notification becomes done first
with the given ctx.Err(). -/
inductive HandOff
  | accepted
  | ctxDoneFirst (e : CtxErr)
deriving DecidableEq, Repr

/-- What Service.Send (together with the sender goroutine that drains s.in)
does with one notification: the value resolved onto its completion signal,
whether it entered the queue, and how many SendEvent transport invocations
happened for it. -/
structure SendOutcome where
  resolved : Option Err
  enqueued : Bool
  transportCalls : Nat
deriving DecidableEq, Repr

/-- Service.Send from conn.go, composed with the processing the single sender
goroutine performs on the dequeued item.  DataCount above 1000 resolves
models.ErrBatchSize without enqueueing; an already-done context resolves its
ctx.Err() (checked explicitly before the select for determinism); then the
enqueue races the context; an accepted notification is processed by the
sender loop: one SendEvent call whose result (sendEventRes, nil on success) is
resolved onto the completion signal. -/
def Service.Send (dataCount : Nat) (ctxErr : Option CtxErr) (handOff : HandOff)
    (sendEventRes : Option Err) : SendOutcome :=
  if 1000 < dataCount then
    { resolved := some Err.batchSize, enqueued := false, transportCalls := 0 }
  else
    match ctxErr with
    | some e => { resolved := some e.toErr, enqueued := false, transportCalls := 0 }
    | none =>
      match handOff with
      | HandOff.ctxDoneFirst e =>
        { resolved := some e.toErr, enqueued := false, transportCalls := 0 }
      | HandOff.accepted =>
        { resolved := sendEventRes, enqueued := true, transportCalls := 1 }

/-- One observable step of the sender loop in conn.go: a SendEvent transport
invocation for a notification, or the resolution of that
completion signal with the outcome. -/
inductive SenderEv
  | sendEvent (id : Nat)
  | resolve (id : Nat) (res : Option Err)
deriving DecidableEq, Repr

/-- Service.sender from conn.go as the trace of its observable steps over the
sequence of notifications received from the capacity-one channel, in arrival
order (notifications identified by a Nat tag; results gives each SendEvent
outcome).  Each iteration invokes SendEvent, resolves the completion signal
with the error (continue) or with nil, and only then receives the next
item. -/
def Service.senderLoop (results : Nat → Option Err) : List Nat → List SenderEv
  | [] => []
  | n :: rest =>
    SenderEv.sendEvent n :: SenderEv.resolve n (results n) :: Service.senderLoop results rest

/-! ## The client package: ARN.Notify and ARN.Async -/

/-- Outcome of ARN.Notify: its return value, whether the notification entered
the pipeline, and how many SendEvent transport invocations happened. -/
structure NotifyOutcome where
  ret : Option Err
  enqueued : Bool
  transportCalls : Nat
deriving DecidableEq, Repr

/-- ARN.Notify from the client package.  Zero items: return nil at once; more
than maxvals.NotificationItems: return models.ErrBatchSize; otherwise acquire
a promise from conn.PromisePool, return ctx.Err() when the context is already
done, race the hand-off into a.in against the context, and on acceptance
await the promise with context.Background() — the context of the caller is not
consulted after the hand-off (ctxAfterHandOff is deliberately unread), so the
await can only end by delivery of the value the pipeline resolves.  The
accepted notification is forwarded by a.sender to conn.Service.Send
(ctxAtConnSend is the context state at that point, connHandOff its hand-off
race, sendEventRes the SendEvent outcome). -/
def ARN.Notify (dataCount : Nat) (ctxErr : Option CtxErr) (arnHandOff : HandOff)
    (ctxAtConnSend : Option CtxErr) (connHandOff : HandOff)
    (ctxAfterHandOff : Option CtxErr) (sendEventRes : Option Err) : NotifyOutcome :=
  if dataCount = 0 then { ret := none, enqueued := false, transportCalls := 0 }
  else if NotificationItems < dataCount then
    { ret := some Err.batchSize, enqueued := false, transportCalls := 0 }
  else
    match ctxErr with
    | some e => { ret := some e.toErr, enqueued := false, transportCalls := 0 }
    | none =>
      match arnHandOff with
      | HandOff.ctxDoneFirst e =>
        { ret := some e.toErr, enqueued := false, transportCalls := 0 }
      | HandOff.accepted =>
        let s := Service.Send dataCount ctxAtConnSend connHandOff sendEventRes
        { ret := Notifications.promiseAwait true none (RaceWinner.delivered s.resolved)
          enqueued := true
          transportCalls := s.transportCalls }

/-- Outcome of ARN.Async for one notification: the (exactly one) resolution
effect its completion eventually receives, whether it entered the pipeline,
and how many SendEvent transport invocations happened. -/
structure AsyncOutcome where
  fx : PromiseEffect
  enqueued : Bool
  transportCalls : Nat
deriving DecidableEq, Repr

/-- ARN.Async from the client package.  SetCtx, then SetPromise (a channel
from conn.PromisePool) only when promise is true.  Zero items: SendPromise(nil,
a.errs) and return; more than maxvals.NotificationItems:
SendPromise(models.ErrBatchSize, a.errs); already-done context:
SendPromise(ctx.Err(), a.errs); then the hand-off races the context, losing
resolves ctx.Err(); an accepted notification is forwarded by a.sender to
conn.Service.Send, which eventually resolves it (rejection or the sender
SendEvent outcome of the sender loop).  a.errs is always non-nil, so backupSet = true in
every SendPromise; promiseEmpty / backupHasRoom describe the two channels. -/
def ARN.Async (dataCount : Nat) (ctxErr : Option CtxErr) (promise : Bool)
    (promiseEmpty : Bool) (backupHasRoom : Bool) (arnHandOff : HandOff)
    (ctxAtConnSend : Option CtxErr) (connHandOff : HandOff)
    (sendEventRes : Option Err) : AsyncOutcome :=
  if dataCount = 0 then
    { fx := Notifications.sendPromiseFx promise none true promiseEmpty backupHasRoom
      enqueued := false, transportCalls := 0 }
  else if NotificationItems < dataCount then
    { fx := Notifications.sendPromiseFx promise (some Err.batchSize) true promiseEmpty backupHasRoom
      enqueued := false, transportCalls := 0 }
  else
    match ctxErr with
    | some e =>
      { fx := Notifications.sendPromiseFx promise (some e.toErr) true promiseEmpty backupHasRoom
        enqueued := false, transportCalls := 0 }
    | none =>
      match arnHandOff with
      | HandOff.ctxDoneFirst e =>
        { fx := Notifications.sendPromiseFx promise (some e.toErr) true promiseEmpty backupHasRoom
          enqueued := false, transportCalls := 0 }
      | HandOff.accepted =>
        let s := Service.Send dataCount ctxAtConnSend connHandOff sendEventRes
        { fx := Notifications.sendPromiseFx promise s.resolved true promiseEmpty backupHasRoom
          enqueued := true
          transportCalls := s.transportCalls }

/-! ## Tenant consistency (spec-modelled)

The released repository validates tenant identifiers and propagates them from
the notification onto the envelope: src carries the tests for this behavior
(msgs_test.go TestTenantIDValidation / TestTenantIDPropagation, which set
Notifications.HomeTenantID and expect envelope Validate() to reject a child
tenant identifier that conflicts with the parent), but not the implementing
code, so that part is modelled from the spec below. -/

/-- Modelled from the spec: the strict-consistency rule of the two-phase send
protocol — "if the caller set a parent-level tenant field but child items
disagree, validation must fail (strict consistency, not silent override)".
A mismatch of one tenant field produces an error naming that field. -/
def tenantMismatch (parent child field : String) : Option String :=
  if parent ≠ "" ∧ child ≠ "" ∧ parent ≠ child then
    some ("Data." ++ field ++ " conflicts with NotificationResource." ++ field)
  else none

/-- Modelled from the spec: the per-resource tenant consistency walk, checking
HomeTenantID then ResourceHomeTenantID of every child item against the
parent-level values. -/
def validateTenantRscs (parentHome parentRscHome : String) :
    List NotificationResource → Option String
  | [] => none
  | r :: rest =>
    match tenantMismatch parentHome r.homeTenantID "HomeTenantID" with
    | some e => some e
    | none =>
      match tenantMismatch parentRscHome r.resourceHomeTenantID "ResourceHomeTenantID" with
      | some e => some e
      | none => validateTenantRscs parentHome parentRscHome rest

/-- Modelled from the spec: envelope validation including the tenant
strict-consistency rule (the Data.Validate of the released types.go whose
implementation is absent from src; its tests are msgs_test.go
TestTenantIDValidation). -/
def Data.ValidateWithTenantRule (d : Data) : Option String :=
  match d.Validate with
  | some e => some e
  | none => validateTenantRscs d.homeTenantID d.resourceHomeTenantID d.resources

/-- Modelled from the spec: the released msgs.Notifications carries
parent-level HomeTenantID / ResourceHomeTenantID fields and toEvent copies
them unchanged onto the envelope data, leaving the child items untouched
(metadata "must be propagated unchanged onto every item and onto the
envelope"; tested by msgs_test.go TestTenantIDPropagation). -/
def Notifications.toEventWithTenants (n : Notifications)
    (parentHome parentRscHome : String)
    (marshal : List NotificationResource → Except String (List Nat))
    (genID : String) (now : Nat) : Except String (List Nat × Event) :=
  match n.toEvent marshal genID now with
  | Except.error e => Except.error e
  | Except.ok (b, ev) =>
    Except.ok (b,
      { ev with data := { ev.data with
          homeTenantID := parentHome, resourceHomeTenantID := parentRscHome } })

/-- Data used for claim C7: an otherwise-valid inline envelope whose
parent-level HomeTenantID is p while its single child item carries
HomeTenantID c. -/
def mkTenantData (p c : String) : Data :=
  { homeTenantID := p
    resourceLocation := "eastus"
    publisherInfo := "pub"
    apiVersion := "2024-01-01"
    resourcesContainer := RCInline
    resources := [{ resourceID := "r1", statusCode := "OK", homeTenantID := c,
                    resourceSystemProperties := { changeAction := 1 } }] }

/-- Witness inputs: a single valid delete-activity resource. -/
def armW : ArmResource := { rtype := "T", id := "/x", apiVersion := "2024-01-01", act := ActDelete }

/-- Witness resource: validates (non-empty ResourceID, valid ChangeAction,
matching APIVersions) once SendEvent stamps its StatusCode. -/
def rscW : NotificationResource :=
  { resourceID := "r1", apiVersion := "2024-01-01", armResource := armW,
    resourceSystemProperties := { changeAction := 2 } }

/-- Witness notification holding the single resource. -/
def nW : Notifications := { resourceLocation := "eastus", publisherInfo := "pub", data := [rscW] }

/-- The witness resource after the producer StatusCode stamp. -/
def rscWStamped : NotificationResource := { rscW with statusCode := StatusCode }

/-- Witness marshal result: three bytes, well below the inline threshold. -/
def marshalSmallW : List NotificationResource → Except String (List Nat) :=
  fun _ => Except.ok [1, 2, 3]

/-- Witness wire transport that accepts every envelope. -/
def httpOkW : Event → Option Err := fun _ => none

/-- Witness blob transport that accepts every upload. -/
def blobOkW : List Nat → Except Err String := fun _ => Except.ok "https://blob"

/-- Witness blob transport that fails every upload. -/
def blobErrW : List Nat → Except Err String := fun _ => Except.error (Err.blobFail "blob error")

/-- The event metadata newEventMeta produces for the witness notification with
uuid "g" at clock reading 1. -/
def metaW : EventMeta :=
  { id := "g", subject := "/", dataVersion := V3, metadataVersion := "1.0",
    eventTime := 1, eventType := "T/delete" }

/-- The stamped inline envelope SendEvent builds for the witness notification. -/
def evInlineW : Event :=
  { eventMeta := metaW
    data := { data := [1, 2, 3], resourcesContainer := RCInline, resourceLocation := "eastus",
              publisherInfo := "pub", resources := [rscWStamped] } }

/-- Witness payload at exactly the inline threshold (42000 bytes): routed to
the blob path. -/
def bigBytesW : List Nat := List.replicate InlineSize 0

/-- Witness marshal result for the blob path. -/
def marshalBigW : List NotificationResource → Except String (List Nat) :=
  fun _ => Except.ok bigBytesW

/-- The stamped blob envelope SendEvent builds for the witness notification:
no embedded payload. -/
def evBlobW : Event :=
  { eventMeta := metaW
    data := { resourcesContainer := RCBlob, resourceLocation := "eastus",
              publisherInfo := "pub", resources := [rscWStamped] } }

/-! ## Claims -/

/-- Claim C3: a notification with more than the configured maximum of 1000
items is rejected by Notify with models.ErrBatchSize before it is enqueued and
before any transport call; a notification with exactly 1000 items passes the
admission check, and with a working transport (SendEvent returning nil) Notify
returns nil. -/
theorem notify_batch_admission (dataCount : Nat) (ctxErr : Option CtxErr)
    (arnHandOff : HandOff) (ctxAtConnSend : Option CtxErr) (connHandOff : HandOff)
    (ctxAfterHandOff ctxAfterHandOff2 : Option CtxErr) (sendEventRes : Option Err)
    (h : NotificationItems < dataCount) :
    ARN.Notify dataCount ctxErr arnHandOff ctxAtConnSend connHandOff ctxAfterHandOff sendEventRes =
      { ret := some Err.batchSize, enqueued := false, transportCalls := 0 } ∧
    ARN.Notify 1000 none HandOff.accepted none HandOff.accepted ctxAfterHandOff2 none =
      { ret := none, enqueued := true, transportCalls := 1 } := by
  constructor
  · have h0 : ¬ dataCount = 0 := by
      simp only [NotificationItems] at h
      omega
    simp [ARN.Notify, h0, h]
  · rfl

/-- Witness for C3 at the concrete batch sizes 1001 and 1000. -/
theorem notify_batch_admission_witness :
    NotificationItems < 1001 ∧
    (ARN.Notify 1001 none HandOff.accepted none HandOff.accepted none none =
      { ret := some Err.batchSize, enqueued := false, transportCalls := 0 } ∧
     ARN.Notify 1000 none HandOff.accepted none HandOff.accepted none none =
      { ret := none, enqueued := true, transportCalls := 1 }) :=
  ⟨by decide,
   notify_batch_admission 1001 none HandOff.accepted none HandOff.accepted none none none
     (by decide)⟩

/-- Claim C4: a notification submitted while its context is already done is
rejected without enqueueing and without any transport call; Notify returns the
own error of that context, and Async resolves the promise (when requested) or the
shared error channel (when not) with that same error. -/
theorem cancelled_context_rejected (dataCount : Nat) (e : CtxErr)
    (arnHandOff : HandOff) (ctxAtConnSend : Option CtxErr) (connHandOff : HandOff)
    (ctxAfterHandOff : Option CtxErr) (sendEventRes : Option Err)
    (promiseEmpty backupHasRoom : Bool)
    (h0 : dataCount ≠ 0) (h1 : dataCount ≤ NotificationItems) :
    ARN.Notify dataCount (some e) arnHandOff ctxAtConnSend connHandOff ctxAfterHandOff sendEventRes =
      { ret := some e.toErr, enqueued := false, transportCalls := 0 } ∧
    ARN.Async dataCount (some e) true true backupHasRoom arnHandOff ctxAtConnSend connHandOff
        sendEventRes =
      { fx := PromiseEffect.sentToPromise (some e.toErr), enqueued := false, transportCalls := 0 } ∧
    ARN.Async dataCount (some e) false promiseEmpty true arnHandOff ctxAtConnSend connHandOff
        sendEventRes =
      { fx := PromiseEffect.sentToBackup e.toErr, enqueued := false, transportCalls := 0 } := by
  have h2 : ¬ NotificationItems < dataCount := by omega
  refine ⟨?_, ?_, ?_⟩ <;>
    simp [ARN.Notify, ARN.Async, Notifications.sendPromiseFx, h0, h2]

/-- Witness for C4 at one item and an already-cancelled context. -/
theorem cancelled_context_rejected_witness :
    (1 ≠ 0 ∧ 1 ≤ NotificationItems) ∧
    (ARN.Notify 1 (some CtxErr.canceled) HandOff.accepted none HandOff.accepted none none =
      { ret := some Err.ctxCanceled, enqueued := false, transportCalls := 0 } ∧
     ARN.Async 1 (some CtxErr.canceled) true true true HandOff.accepted none HandOff.accepted none =
      { fx := PromiseEffect.sentToPromise (some Err.ctxCanceled), enqueued := false,
        transportCalls := 0 } ∧
     ARN.Async 1 (some CtxErr.canceled) false true true HandOff.accepted none HandOff.accepted none =
      { fx := PromiseEffect.sentToBackup Err.ctxCanceled, enqueued := false,
        transportCalls := 0 }) :=
  ⟨by decide,
   cancelled_context_rejected 1 CtxErr.canceled HandOff.accepted none HandOff.accepted none none
     true true (by decide) (by decide)⟩

/-- Claim C9: a notification with zero data items is an immediate no-op
success: Notify returns nil without enqueueing and without a transport call,
and Async resolves its promise with nil when one is requested and sends
nothing at all to the error channel when not. -/
theorem zero_items_noop (ctxErr : Option CtxErr) (arnHandOff : HandOff)
    (ctxAtConnSend : Option CtxErr) (connHandOff : HandOff) (ctxAfterHandOff : Option CtxErr)
    (sendEventRes : Option Err) (promiseEmpty backupHasRoom : Bool) :
    ARN.Notify 0 ctxErr arnHandOff ctxAtConnSend connHandOff ctxAfterHandOff sendEventRes =
      { ret := none, enqueued := false, transportCalls := 0 } ∧
    ARN.Async 0 ctxErr true true backupHasRoom arnHandOff ctxAtConnSend connHandOff sendEventRes =
      { fx := PromiseEffect.sentToPromise none, enqueued := false, transportCalls := 0 } ∧
    ARN.Async 0 ctxErr false promiseEmpty backupHasRoom arnHandOff ctxAtConnSend connHandOff
        sendEventRes =
      { fx := PromiseEffect.noOp, enqueued := false, transportCalls := 0 } :=
  ⟨rfl, rfl, rfl⟩

/-- Claim C8: the single sender loop of conn.Service processes the
notifications received from the capacity-one hand-off queue strictly in
arrival order: its trace is exactly, for each notification in queue order, one
SendEvent transport invocation followed by the resolution of that
completion of that notification, before the next item is taken; in particular the
order of transport invocations equals the queue order. -/
theorem sender_loop_fifo (results : Nat → Option Err) (q : List Nat) :
    Service.senderLoop results q
      = q.flatMap (fun n => [SenderEv.sendEvent n, SenderEv.resolve n (results n)]) ∧
    (Service.senderLoop results q).filterMap
      (fun ev => match ev with | SenderEv.sendEvent i => some i | _ => none) = q := by
  induction q with
  | nil => exact ⟨rfl, rfl⟩
  | cons n rest ih =>
    constructor
    · simp [Service.senderLoop, ih.1]
    · simp [Service.senderLoop, List.filterMap_cons, ih.2]

/-- Claim C5 (evaluation at the failing input): Promise called with a wait
context that is already done at entry returns the own error of the context
(ctx.Err()), not the distinguished models.ErrPromiseTimeout that the
Notifications interface contract requires for a done context — regardless of
whether the channel would have delivered a value. -/
theorem promise_entry_ctx_done_returns_ctx_err :
    Notifications.promiseAwait true (some CtxErr.canceled) RaceWinner.ctxDone
      = some Err.ctxCanceled ∧
    Notifications.promiseAwait true (some CtxErr.canceled)
        (RaceWinner.delivered (some (Err.httpFail "send failed")))
      = some Err.ctxCanceled ∧
    Err.ctxCanceled ≠ Err.promiseTimeout ∧
    Notifications.promiseAwait true none RaceWinner.ctxDone = some Err.promiseTimeout :=
  ⟨rfl, rfl, by decide, rfl⟩

/-- Counterexample to C6 as stated: the release performed when Promise returns
(the deferred conn.PromisePool.Put) does not drain the channel — a stale
unread value survives into the pool, and a channel released empty after a wait
timeout receives the later resolution by the sender loop while pooled. -/
theorem promise_release_no_drain_counterexample :
    Notifications.promiseReleaseChan (some (some (Err.httpFail "send failed")))
      = some (some (Err.httpFail "send failed")) ∧
    resolveChan (Notifications.promiseReleaseChan none) (some (Err.httpFail "late resolution"))
      = some (some (Err.httpFail "late resolution")) :=
  ⟨rfl, rfl⟩

/-- Claim C6 (amended): Recycle drains any stale unread value, so it always
returns the channel to the pool empty; but the release performed when Promise
returns puts the channel back unchanged, without draining, and a pooled
channel can still receive a late resolution — so the pool can hand out a
channel holding a pending unread error. -/
theorem release_paths_amended (c : PromiseChan) (e : Option Err) :
    Notifications.recycleChan c = none ∧
    Notifications.promiseReleaseChan c = c ∧
    resolveChan none e = some e := by
  refine ⟨?_, rfl, rfl⟩
  cases c <;> rfl

/-- Claim C10: once Notify has enqueued the notification it awaits the
promise with context.Background(): its return value is exactly the resolution
the pipeline delivers (Service.Send composed with the sender loop), the state
of the context of the caller after the hand-off is irrelevant, and Notify can never
return models.ErrPromiseTimeout as long as SendEvent itself does not produce
that sentinel. -/
theorem notify_background_await (dataCount : Nat)
    (ctxAtConnSend : Option CtxErr) (connHandOff : HandOff)
    (ctxAfterHandOff ctxAfterHandOff2 : Option CtxErr) (sendEventRes : Option Err)
    (h0 : dataCount ≠ 0) (h1 : dataCount ≤ NotificationItems) :
    (ARN.Notify dataCount none HandOff.accepted ctxAtConnSend connHandOff ctxAfterHandOff
        sendEventRes).ret
      = (Service.Send dataCount ctxAtConnSend connHandOff sendEventRes).resolved ∧
    ARN.Notify dataCount none HandOff.accepted ctxAtConnSend connHandOff ctxAfterHandOff
        sendEventRes
      = ARN.Notify dataCount none HandOff.accepted ctxAtConnSend connHandOff ctxAfterHandOff2
        sendEventRes ∧
    (sendEventRes ≠ some Err.promiseTimeout →
      ∀ (dc : Nat) (ce : Option CtxErr) (ho : HandOff) (cc : Option CtxErr) (ch : HandOff)
        (ca : Option CtxErr),
        (ARN.Notify dc ce ho cc ch ca sendEventRes).ret ≠ some Err.promiseTimeout) := by
  have h2 : ¬ NotificationItems < dataCount := by omega
  refine ⟨?_, rfl, ?_⟩
  · simp [ARN.Notify, Notifications.promiseAwait, h0, h2]
  · intro hres dc ce ho cc ch ca
    by_cases hdc0 : dc = 0
    · simp [ARN.Notify, hdc0]
    by_cases hdcL : NotificationItems < dc
    · simp [ARN.Notify, hdc0, hdcL]
    rcases ce with _ | e1
    · rcases ho with _ | e2
      · rcases cc with _ | e3
        · rcases ch with _ | e4
          · simpa [ARN.Notify, Service.Send, Notifications.promiseAwait, hdc0, hdcL,
              show ¬ 1000 < dc by simpa [NotificationItems] using hdcL] using hres
          · cases e4 <;>
              simp [ARN.Notify, Service.Send, Notifications.promiseAwait, CtxErr.toErr,
                hdc0, hdcL, show ¬ 1000 < dc by simpa [NotificationItems] using hdcL]
        · cases e3 <;>
            simp [ARN.Notify, Service.Send, Notifications.promiseAwait, CtxErr.toErr,
              hdc0, hdcL, show ¬ 1000 < dc by simpa [NotificationItems] using hdcL]
      · cases e2 <;> simp [ARN.Notify, CtxErr.toErr, hdc0, hdcL]
    · cases e1 <;> simp [ARN.Notify, CtxErr.toErr, hdc0, hdcL]

/-- Witness for C10 at one item, a failing transport and a caller context that
is cancelled right after the hand-off. -/
theorem notify_background_await_witness :
    (1 ≠ 0 ∧ 1 ≤ NotificationItems) ∧
    ((ARN.Notify 1 none HandOff.accepted none HandOff.accepted (some CtxErr.canceled)
        (some (Err.httpFail "send failed"))).ret
       = (Service.Send 1 none HandOff.accepted (some (Err.httpFail "send failed"))).resolved ∧
     ARN.Notify 1 none HandOff.accepted none HandOff.accepted (some CtxErr.canceled)
        (some (Err.httpFail "send failed"))
       = ARN.Notify 1 none HandOff.accepted none HandOff.accepted none
        (some (Err.httpFail "send failed")) ∧
     (some (Err.httpFail "send failed") ≠ some Err.promiseTimeout →
      ∀ (dc : Nat) (ce : Option CtxErr) (ho : HandOff) (cc : Option CtxErr) (ch : HandOff)
        (ca : Option CtxErr),
        (ARN.Notify dc ce ho cc ch ca (some (Err.httpFail "send failed"))).ret
          ≠ some Err.promiseTimeout)) :=
  ⟨by decide,
   notify_background_await 1 none HandOff.accepted (some CtxErr.canceled) none
     (some (Err.httpFail "send failed")) (by decide) (by decide)⟩

/-- The envelope built by toEvent always carries the items of the notification
unchanged in Data.Resources (both the inline and the blob branch copy
Resources: n.Data). -/
theorem toEvent_resources_unchanged (n : Notifications)
    (marshal : List NotificationResource → Except String (List Nat))
    (genID : String) (now : Nat) (b : List Nat) (ev : Event)
    (h : n.toEvent marshal genID now = Except.ok (b, ev)) :
    ev.data.resources = n.data := by
  unfold Notifications.toEvent at h
  rcases hinl : n.inline marshal with e | ⟨dataJSON, inl⟩ <;> rw [hinl] at h
  · cases h
  · rcases hme : newEventMeta n.data genID now with e | meta <;> rw [hme] at h
    · cases h
    · cases inl <;> simp only [if_true, if_false, Bool.false_eq_true, ite_false, ite_true,
        Except.ok.injEq, Prod.mk.injEq] at h <;>
        · rcases h with ⟨h1, h2⟩
          subst h2
          rfl

/-- Claim C7: when the caller sets a parent-level tenant identifier but a
child item carries a conflicting one, envelope validation fails with an error
mentioning the mismatched field (HomeTenantID), while the same data passes
every check of the src Data.Validate; and tenant metadata is propagated onto
the envelope unchanged — toEventWithTenants copies the parent-level tenant
identifiers verbatim and leaves the child items untouched. -/
theorem tenant_mismatch_fails_validation (p c : String)
    (hp : p ≠ "") (hc : c ≠ "") (hpc : p ≠ c) :
    (mkTenantData p c).Validate = none ∧
    (mkTenantData p c).ValidateWithTenantRule
      = some "Data.HomeTenantID conflicts with NotificationResource.HomeTenantID" ∧
    (∀ (n : Notifications) (ph prh : String)
        (marshal : List NotificationResource → Except String (List Nat))
        (genID : String) (now : Nat) (b : List Nat) (ev : Event),
      n.toEventWithTenants ph prh marshal genID now = Except.ok (b, ev) →
        ev.data.homeTenantID = ph ∧ ev.data.resourceHomeTenantID = prh ∧
        ev.data.resources = n.data) := by
  refine ⟨rfl, ?_, ?_⟩
  · unfold Data.ValidateWithTenantRule
    have hbase : (mkTenantData p c).Validate = none := rfl
    rw [hbase]
    unfold mkTenantData validateTenantRscs tenantMismatch
    rw [if_pos ⟨hp, hc, hpc⟩]
    rfl
  · intro n ph prh marshal genID now b ev h
    unfold Notifications.toEventWithTenants at h
    rcases hte : n.toEvent marshal genID now with e | ⟨b0, ev0⟩ <;> rw [hte] at h
    · cases h
    · simp only [Except.ok.injEq, Prod.mk.injEq] at h
      rcases h with ⟨h1, h2⟩
      subst h2
      exact ⟨rfl, rfl, toEvent_resources_unchanged n marshal genID now b0 ev0 hte⟩

/-- Witness for C7 at the concrete conflicting tenant identifiers "tenant-a"
(parent) and "tenant-b" (child). -/
theorem tenant_mismatch_fails_validation_witness :
    ("tenant-a" ≠ "" ∧ "tenant-b" ≠ "" ∧ "tenant-a" ≠ "tenant-b") ∧
    ((mkTenantData "tenant-a" "tenant-b").Validate = none ∧
     (mkTenantData "tenant-a" "tenant-b").ValidateWithTenantRule
       = some "Data.HomeTenantID conflicts with NotificationResource.HomeTenantID" ∧
     (∀ (n : Notifications) (ph prh : String)
         (marshal : List NotificationResource → Except String (List Nat))
         (genID : String) (now : Nat) (b : List Nat) (ev : Event),
       n.toEventWithTenants ph prh marshal genID now = Except.ok (b, ev) →
         ev.data.homeTenantID = ph ∧ ev.data.resourceHomeTenantID = prh ∧
         ev.data.resources = n.data)) :=
  ⟨by decide,
   tenant_mismatch_fails_validation "tenant-a" "tenant-b" (by decide) (by decide) (by decide)⟩

/-- Claim C1: a notification whose items serialize to fewer than
maxvals.InlineSize bytes is sent with exactly one inline HTTP send and zero
blob uploads — the envelope is built with the payload embedded
(ResourcesContainer = RCInline, the serialized bytes in Data) and handed
directly to the wire transport, whose outcome is the result of SendEvent. -/
theorem sendEvent_inline_path (n : Notifications)
    (marshal : List NotificationResource → Except String (List Nat))
    (genID : String) (now : Nat)
    (httpRes : Event → Option Err) (blobRes : List Nat → Except Err String)
    (bs : List Nat) (ev : Event)
    (hne : n.data ≠ [])
    (hm : marshal n.data = Except.ok bs)
    (hlt : bs.length < InlineSize)
    (hbe : n.builtEvent marshal genID now = some ev)
    (hv : ev.Validate = none) :
    n.SendEvent marshal genID now httpRes blobRes = ([Call.http ev], httpRes ev) ∧
    ev.data.resourcesContainer = RCInline ∧
    ev.data.data = bs := by
  have hdec : decide (bs.length < InlineSize) = true := decide_eq_true hlt
  have hinl : n.inline marshal = Except.ok (bs, true) := by
    simp [Notifications.inline, hm, hdec]
  rcases hd : n.data with _ | ⟨r0, rs⟩
  · exact absurd hd hne
  · have hempty : n.data.isEmpty = false := by rw [hd]; rfl
    have hme : newEventMeta n.data genID now = Except.ok
        { id := genID, subject := subject n.data, dataVersion := V3,
          metadataVersion := "1.0", eventTime := now,
          eventType := r0.armResource.rtype ++ "/" ++ activityString r0.armResource.act } := by
      rw [hd]
      rfl
    have hte : n.toEvent marshal genID now = Except.ok (bs,
        { eventMeta :=
            { id := genID, subject := subject n.data, dataVersion := V3,
              metadataVersion := "1.0", eventTime := now,
              eventType := r0.armResource.rtype ++ "/" ++ activityString r0.armResource.act }
          data := { data := bs, resourcesContainer := RCInline,
                    resourceLocation := n.resourceLocation,
                    publisherInfo := n.publisherInfo,
                    resources := n.data } }) := by
      unfold Notifications.toEvent
      rw [hinl, hme]
      rfl
    have hbe2 : some (stampEvent
        { eventMeta :=
            { id := genID, subject := subject n.data, dataVersion := V3,
              metadataVersion := "1.0", eventTime := now,
              eventType := r0.armResource.rtype ++ "/" ++ activityString r0.armResource.act }
          data := { data := bs, resourcesContainer := RCInline,
                    resourceLocation := n.resourceLocation,
                    publisherInfo := n.publisherInfo,
                    resources := n.data } }) = some ev := by
      rw [← hbe]
      unfold Notifications.builtEvent
      rw [hte]
    have hEv := Option.some.inj hbe2
    have hc2 : ev.data.resourcesContainer = RCInline := by rw [← hEv]; rfl
    have hc3 : ev.data.data = bs := by rw [← hEv]; rfl
    refine ⟨?_, hc2, hc3⟩
    unfold Notifications.SendEvent
    rw [hempty]
    simp only [Bool.false_eq_true, if_false]
    simp only [hte, hEv, hv, hc2]
    simp

/-- Witness for C1: a single small delete resource, a marshal result of three
bytes, a working transport. -/
theorem sendEvent_inline_path_witness :
    (nW.data ≠ [] ∧ marshalSmallW nW.data = Except.ok [1, 2, 3] ∧
     ([1, 2, 3] : List Nat).length < InlineSize ∧
     nW.builtEvent marshalSmallW "g" 1 = some evInlineW ∧ evInlineW.Validate = none) ∧
    (nW.SendEvent marshalSmallW "g" 1 httpOkW blobOkW
        = ([Call.http evInlineW], httpOkW evInlineW) ∧
     evInlineW.data.resourcesContainer = RCInline ∧
     evInlineW.data.data = [1, 2, 3]) :=
  ⟨⟨by decide, rfl, by decide, by decide, by decide⟩,
   sendEvent_inline_path nW marshalSmallW "g" 1 httpOkW blobOkW [1, 2, 3] evInlineW
     (by decide) rfl (by decide) (by decide) (by decide)⟩

/-- Claim C2: a notification whose items serialize to at least
maxvals.InlineSize bytes performs exactly one blob upload first and then — on
upload success only — exactly one inline HTTP send whose envelope embeds no
payload (Data empty, RCBlob) and instead carries the blob locator (URI and
byte size); when the upload errors, SendEvent returns that error and no HTTP
send happens. -/
theorem sendEvent_blob_path (n : Notifications)
    (marshal : List NotificationResource → Except String (List Nat))
    (genID : String) (now : Nat)
    (httpRes : Event → Option Err) (blobRes : List Nat → Except Err String)
    (bs : List Nat) (ev : Event)
    (hne : n.data ≠ [])
    (hm : marshal n.data = Except.ok bs)
    (hge : InlineSize ≤ bs.length)
    (hbe : n.builtEvent marshal genID now = some ev)
    (hv : ev.Validate = none) :
    ev.data.resourcesContainer = RCBlob ∧
    ev.data.data = [] ∧
    (∀ u, blobRes bs = Except.ok u →
      n.SendEvent marshal genID now httpRes blobRes =
        ([Call.blob bs, Call.http (setBlobInfo ev u bs.length)],
         httpRes (setBlobInfo ev u bs.length)) ∧
      (setBlobInfo ev u bs.length).data.resourcesBlobInfo
        = { blobURI := u, blobSize := bs.length }) ∧
    (∀ e, blobRes bs = Except.error e →
      n.SendEvent marshal genID now httpRes blobRes = ([Call.blob bs], some e)) := by
  have hdec : decide (bs.length < InlineSize) = false := decide_eq_false (not_lt.mpr hge)
  have hinl : n.inline marshal = Except.ok (bs, false) := by
    simp [Notifications.inline, hm, hdec]
  rcases hd : n.data with _ | ⟨r0, rs⟩
  · exact absurd hd hne
  · have hempty : n.data.isEmpty = false := by rw [hd]; rfl
    have hme : newEventMeta n.data genID now = Except.ok
        { id := genID, subject := subject n.data, dataVersion := V3,
          metadataVersion := "1.0", eventTime := now,
          eventType := r0.armResource.rtype ++ "/" ++ activityString r0.armResource.act } := by
      rw [hd]
      rfl
    have hte : n.toEvent marshal genID now = Except.ok (bs,
        { eventMeta :=
            { id := genID, subject := subject n.data, dataVersion := V3,
              metadataVersion := "1.0", eventTime := now,
              eventType := r0.armResource.rtype ++ "/" ++ activityString r0.armResource.act }
          data := { resourcesContainer := RCBlob,
                    resourceLocation := n.resourceLocation,
                    publisherInfo := n.publisherInfo,
                    resources := n.data } }) := by
      unfold Notifications.toEvent
      rw [hinl, hme]
      rfl
    have hbe2 : some (stampEvent
        { eventMeta :=
            { id := genID, subject := subject n.data, dataVersion := V3,
              metadataVersion := "1.0", eventTime := now,
              eventType := r0.armResource.rtype ++ "/" ++ activityString r0.armResource.act }
          data := { resourcesContainer := RCBlob,
                    resourceLocation := n.resourceLocation,
                    publisherInfo := n.publisherInfo,
                    resources := n.data } }) = some ev := by
      rw [← hbe]
      unfold Notifications.builtEvent
      rw [hte]
    have hEv := Option.some.inj hbe2
    have hc1 : ev.data.resourcesContainer = RCBlob := by rw [← hEv]; rfl
    have hc2 : ev.data.data = [] := by rw [← hEv]; rfl
    have hnotinline : ¬ ev.data.resourcesContainer = RCInline := by
      rw [hc1]
      decide
    refine ⟨hc1, hc2, ?_, ?_⟩
    · intro u hu
      constructor
      · unfold Notifications.SendEvent
        rw [hempty]
        simp only [Bool.false_eq_true, if_false]
        simp only [hte, hEv, hv, hc1, hu]
        simp [show ¬ RCBlob = RCInline by decide]
      · rfl
    · intro e he
      unfold Notifications.SendEvent
      rw [hempty]
      simp only [Bool.false_eq_true, if_false]
      simp only [hte, hEv, hv, hc1, he]
      simp [show ¬ RCBlob = RCInline by decide]

/-- The envelope toEvent builds for a payload at or above the inline
threshold: no embedded payload, ResourcesContainer = RCBlob, the resources
copied unchanged. -/
theorem toEvent_blob_eq (n : Notifications)
    (marshal : List NotificationResource → Except String (List Nat))
    (genID : String) (now : Nat) (bs : List Nat) (r0 : NotificationResource)
    (rs : List NotificationResource)
    (hd : n.data = r0 :: rs)
    (hinl : n.inline marshal = Except.ok (bs, false)) :
    n.toEvent marshal genID now = Except.ok (bs,
      { eventMeta :=
          { id := genID, subject := subject n.data, dataVersion := V3,
            metadataVersion := "1.0", eventTime := now,
            eventType := r0.armResource.rtype ++ "/" ++ activityString r0.armResource.act }
        data := { resourcesContainer := RCBlob,
                  resourceLocation := n.resourceLocation,
                  publisherInfo := n.publisherInfo,
                  resources := n.data } }) := by
  have hme : newEventMeta n.data genID now = Except.ok
      { id := genID, subject := subject n.data, dataVersion := V3,
        metadataVersion := "1.0", eventTime := now,
        eventType := r0.armResource.rtype ++ "/" ++ activityString r0.armResource.act } := by
    rw [hd]
    rfl
  unfold Notifications.toEvent
  rw [hinl, hme]
  rfl

/-- The stamped envelope SendEvent validates on the blob path. -/
theorem builtEvent_blob_eq (n : Notifications)
    (marshal : List NotificationResource → Except String (List Nat))
    (genID : String) (now : Nat) (bs : List Nat) (r0 : NotificationResource)
    (rs : List NotificationResource)
    (hd : n.data = r0 :: rs)
    (hinl : n.inline marshal = Except.ok (bs, false)) :
    n.builtEvent marshal genID now = some (stampEvent
      { eventMeta :=
          { id := genID, subject := subject n.data, dataVersion := V3,
            metadataVersion := "1.0", eventTime := now,
            eventType := r0.armResource.rtype ++ "/" ++ activityString r0.armResource.act }
        data := { resourcesContainer := RCBlob,
                  resourceLocation := n.resourceLocation,
                  publisherInfo := n.publisherInfo,
                  resources := n.data } }) := by
  unfold Notifications.builtEvent
  rw [toEvent_blob_eq n marshal genID now bs r0 rs hd hinl]

/-- Witness for C2: the same resource with a 42000-byte marshal result, once
with a blob transport that succeeds and once with one that fails. -/
theorem sendEvent_blob_path_witness :
    (nW.data ≠ [] ∧ marshalBigW nW.data = Except.ok bigBytesW ∧
     InlineSize ≤ bigBytesW.length ∧
     nW.builtEvent marshalBigW "g" 1 = some evBlobW ∧ evBlobW.Validate = none) ∧
    (evBlobW.data.resourcesContainer = RCBlob ∧
     evBlobW.data.data = [] ∧
     (∀ u, blobOkW bigBytesW = Except.ok u →
       nW.SendEvent marshalBigW "g" 1 httpOkW blobOkW =
         ([Call.blob bigBytesW, Call.http (setBlobInfo evBlobW u bigBytesW.length)],
          httpOkW (setBlobInfo evBlobW u bigBytesW.length)) ∧
       (setBlobInfo evBlobW u bigBytesW.length).data.resourcesBlobInfo
         = { blobURI := u, blobSize := bigBytesW.length }) ∧
     (∀ e, blobOkW bigBytesW = Except.error e →
       nW.SendEvent marshalBigW "g" 1 httpOkW blobOkW = ([Call.blob bigBytesW], some e))) ∧
    (∀ e, blobErrW bigBytesW = Except.error e →
       nW.SendEvent marshalBigW "g" 1 httpOkW blobErrW = ([Call.blob bigBytesW], some e)) := by
  have hlen : bigBytesW.length = InlineSize := List.length_replicate _ _
  have hge : InlineSize ≤ bigBytesW.length := by
    rw [hlen]
  have hdec : decide (bigBytesW.length < InlineSize) = false := by
    rw [hlen]
    rfl
  have hinl : nW.inline marshalBigW = Except.ok (bigBytesW, false) := by
    show Except.ok (bigBytesW, decide (bigBytesW.length < InlineSize))
      = Except.ok (bigBytesW, false)
    rw [hdec]
  have hbe : nW.builtEvent marshalBigW "g" 1 = some evBlobW := by
    rw [builtEvent_blob_eq nW marshalBigW "g" 1 bigBytesW rscW [] rfl hinl]
    rfl
  refine ⟨⟨by decide, rfl, hge, hbe, by decide⟩, ?_, ?_⟩
  · exact sendEvent_blob_path nW marshalBigW "g" 1 httpOkW blobOkW bigBytesW evBlobW
      (by decide) rfl hge hbe (by decide)
  · exact (sendEvent_blob_path nW marshalBigW "g" 1 httpOkW blobErrW bigBytesW evBlobW
      (by decide) rfl hge hbe (by decide)).2.2.2
